import Mathlib

/-!
Verification development for the Kraken Futures websocket connection manager
(`kraken/futures/websocket/__init__.py`, `kraken/futures/ws_client/ws_client.py`).

The Python source is shallowly embedded: dict-shaped wire messages become a
`Frame` structure holding the fields the code inspects plus an opaque
remainder, the mutable client attributes become a `ClientState` record,
coroutine control flow becomes labelled transition systems, and fallible
operations (Python `raise`) return `Except`.
-/

namespace KrakenWs

/-- Python `msg["product_ids"]` may hold a single string or a list of strings;
`__build_subscription` checks `isinstance(..., list)` and wraps a lone string. -/
inductive ProductIds where
  | single (s : String)
  | listed (ss : List String)
deriving DecidableEq, Repr

/-- Normalisation performed by `__build_subscription`:
a non-list value `v` is stored as `[v]`. -/
def ProductIds.toListForm : ProductIds → List String
  | .single s => [s]
  | .listed ss => ss

/-- An inbound JSON frame, holding exactly the keys the receive loop inspects
(`event`, `message`, `feed`, `product_ids`); `rest` stands for the remaining
key/value content of the JSON object, carried through untouched, so that two
distinct data frames stay distinguishable. -/
structure Frame where
  event : Option String
  message : Option String
  feed : Option String
  product_ids : Option ProductIds
  rest : Nat
deriving DecidableEq, Repr

/-- The dict built by `__build_subscription` and stored in
`self.__subscriptions`.  Its `"event"` key is always the constant
`"subscribe"`, so only the optional `feed` and `product_ids` keys
distinguish entries; Python dict equality on the built dicts is exactly
structural equality of this record. -/
structure Sub where
  feed : Option String
  product_ids : Option (List String)
deriving DecidableEq, Repr

/-- Error message of the `ValueError` raised by `__build_subscription`. -/
def missingAttrsMsg : String :=
  "Cannot append/remove subscription with missing attributes."

/-- `ConnectFuturesWebsocket.__build_subscription`: raises `ValueError` when
`event` is absent, not `"subscribed"`/`"unsubscribed"`, or `feed` is absent;
otherwise builds the stored dict, taking the public branch when the feed is in
the public catalog (keeping a normalised product-id list), the private branch
when it is in the private catalog (no product ids), and the warning branch
(a dict with neither `feed` nor `product_ids`) otherwise. -/
def build_subscription (pub priv : List String) (m : Frame) : Except String Sub :=
  match m.event, m.feed with
  | some ev, some f =>
      if ev = "subscribed" ∨ ev = "unsubscribed" then
        .ok (if f ∈ pub then
              { feed := some f, product_ids := m.product_ids.map ProductIds.toListForm }
             else if f ∈ priv then
              { feed := some f, product_ids := none }
             else
              { feed := none, product_ids := none })
      else .error missingAttrsMsg
  | _, _ => .error missingAttrsMsg

/-- `ConnectFuturesWebsocket.__remove_subscription`: rebuilds the dict from the
ack message and filters every structurally-equal entry out of the registry. -/
def remove_subscription (pub priv : List String) (m : Frame) (subs : List Sub) :
    Except String (List Sub) := do
  let s ← build_subscription pub priv m
  pure (subs.filter (fun x => x ≠ s))

/-- `ConnectFuturesWebsocket.__append_subscription`: removes any
structurally-equal entry first, then appends the rebuilt dict. -/
def append_subscription (pub priv : List String) (m : Frame) (subs : List Sub) :
    Except String (List Sub) := do
  let subs' ← remove_subscription pub priv m subs
  let s ← build_subscription pub priv m
  pure (subs' ++ [s])

/-! ### Cryptographic primitives

`FuturesWsClientCl._get_sign_challenge` composes Python-stdlib primitives
(`hashlib.sha256`, `hashlib.sha512`, `hmac.new`, `base64.b64encode`,
`base64.b64decode`, `str.encode('utf8')`).  They are implemented here over
byte lists (`List Nat`, each entry `< 256`) so the composition is executable
and checkable against known vectors. -/

/-- Truncate to a 32-bit word. -/
def w32 (n : Nat) : Nat := n % 4294967296

/-- Truncate to a 64-bit word. -/
def w64 (n : Nat) : Nat := n % 18446744073709551616

/-- Right-rotation of a 32-bit word. -/
def rotr32 (x n : Nat) : Nat := w32 ((x >>> n) ||| (x <<< (32 - n)))

/-- Right-rotation of a 64-bit word. -/
def rotr64 (x n : Nat) : Nat := w64 ((x >>> n) ||| (x <<< (64 - n)))

/-- Big-endian encoding of `v` into `n` bytes. -/
def beBytes : Nat → Nat → List Nat
  | 0, _ => []
  | n + 1, v => beBytes n (v / 256) ++ [v % 256]

/-- Group a byte list into big-endian 32-bit words. -/
def toWords32 : List Nat → List Nat
  | b0 :: b1 :: b2 :: b3 :: rest => (((b0 * 256 + b1) * 256 + b2) * 256 + b3) :: toWords32 rest
  | _ => []

/-- Group a byte list into big-endian 64-bit words. -/
def toWords64 : List Nat → List Nat
  | b0 :: b1 :: b2 :: b3 :: b4 :: b5 :: b6 :: b7 :: rest =>
      (((((((b0 * 256 + b1) * 256 + b2) * 256 + b3) * 256 + b4) * 256 + b5) * 256
        + b6) * 256 + b7) :: toWords64 rest
  | _ => []

/-- SHA-256 round constants. -/
def K256 : List Nat :=
  [1116352408, 1899447441, 3049323471, 3921009573, 961987163, 1508970993, 2453635748,
   2870763221, 3624381080, 310598401, 607225278, 1426881987, 1925078388, 2162078206,
   2614888103, 3248222580, 3835390401, 4022224774, 264347078, 604807628, 770255983,
   1249150122, 1555081692, 1996064986, 2554220882, 2821834349, 2952996808, 3210313671,
   3336571891, 3584528711, 113926993, 338241895, 666307205, 773529912, 1294757372,
   1396182291, 1695183700, 1986661051, 2177026350, 2456956037, 2730485921, 2820302411,
   3259730800, 3345764771, 3516065817, 3600352804, 4094571909, 275423344, 430227734,
   506948616, 659060556, 883997877, 958139571, 1322822218, 1537002063, 1747873779,
   1955562222, 2024104815, 2227730452, 2361852424, 2428436474, 2756734187, 3204031479,
   3329325298]

/-- SHA-256 initial hash state. -/
def H256 : List Nat :=
  [1779033703, 3144134277, 1013904242, 2773480762, 1359893119, 2600822924, 528734635,
   1541459225]

/-- List lookup defaulting to 0, used by the message-schedule recurrences. -/
def wget (w : List Nat) (i : Nat) : Nat := w.getD i 0

/-- Extend a 16-word SHA-256 block to the 64-word message schedule
(`n` remaining extension steps). -/
def sha256Extend : Nat → List Nat → List Nat
  | 0, w => w
  | n + 1, w =>
      let i := w.length
      let s0 :=
        rotr32 (wget w (i - 15)) 7 ^^^ rotr32 (wget w (i - 15)) 18 ^^^ (wget w (i - 15) >>> 3)
      let s1 :=
        rotr32 (wget w (i - 2)) 17 ^^^ rotr32 (wget w (i - 2)) 19 ^^^ (wget w (i - 2) >>> 10)
      sha256Extend n (w ++ [w32 (wget w (i - 16) + s0 + wget w (i - 7) + s1)])

/-- One SHA-256 compression round on the 8-word working state. -/
def sha256Round (k wi : Nat) : List Nat → List Nat
  | [a, b, c, d, e, f, g, h] =>
      let S1 := rotr32 e 6 ^^^ rotr32 e 11 ^^^ rotr32 e 25
      let ch := (e &&& f) ^^^ ((4294967295 - e) &&& g)
      let t1 := w32 (h + S1 + ch + k + wi)
      let S0 := rotr32 a 2 ^^^ rotr32 a 13 ^^^ rotr32 a 22
      let maj := (a &&& b) ^^^ (a &&& c) ^^^ (b &&& c)
      let t2 := w32 (S0 + maj)
      [w32 (t1 + t2), a, b, c, w32 (d + t1), e, f, g]
  | st => st

/-- Compress one 16-word block into the running SHA-256 state. -/
def sha256Compress (h block : List Nat) : List Nat :=
  let w := sha256Extend 48 block
  let st := (K256.zip w).foldl (fun st kw => sha256Round kw.1 kw.2 st) h
  List.zipWith (fun x y => w32 (x + y)) h st

/-- Fold the SHA-256 compression over the padded word stream,
16 words per block. -/
def sha256Fold (h : List Nat) : List Nat → List Nat
  | w0 :: w1 :: w2 :: w3 :: w4 :: w5 :: w6 :: w7 ::
    w8 :: w9 :: w10 :: w11 :: w12 :: w13 :: w14 :: w15 :: rest =>
      sha256Fold
        (sha256Compress h
          [w0, w1, w2, w3, w4, w5, w6, w7, w8, w9, w10, w11, w12, w13, w14, w15]) rest
  | _ => h

/-- Merkle–Damgård padding: `128`, zeros to 56 mod 64, 8-byte bit length. -/
def sha256Pad (msg : List Nat) : List Nat :=
  msg ++ [128] ++ List.replicate ((64 - (msg.length + 9) % 64) % 64) 0
      ++ beBytes 8 (msg.length * 8)

/-- SHA-256 of a byte list (`hashlib.sha256(...).digest()`). -/
def sha256 (msg : List Nat) : List Nat :=
  (sha256Fold H256 (toWords32 (sha256Pad msg))).foldr (fun wd acc => beBytes 4 wd ++ acc) []

/-- SHA-512 round constants. -/
def K512 : List Nat :=
  [4794697086780616226, 8158064640168781261, 13096744586834688815, 16840607885511220156,
   4131703408338449720, 6480981068601479193, 10538285296894168987, 12329834152419229976,
   15566598209576043074, 1334009975649890238, 2608012711638119052, 6128411473006802146,
   8268148722764581231, 9286055187155687089, 11230858885718282805, 13951009754708518548,
   16472876342353939154, 17275323862435702243, 1135362057144423861, 2597628984639134821,
   3308224258029322869, 5365058923640841347, 6679025012923562964, 8573033837759648693,
   10970295158949994411, 12119686244451234320, 12683024718118986047, 13788192230050041572,
   14330467153632333762, 15395433587784984357, 489312712824947311, 1452737877330783856,
   2861767655752347644, 3322285676063803686, 5560940570517711597, 5996557281743188959,
   7280758554555802590, 8532644243296465576, 9350256976987008742, 10552545826968843579,
   11727347734174303076, 12113106623233404929, 14000437183269869457, 14369950271660146224,
   15101387698204529176, 15463397548674623760, 17586052441742319658, 1182934255886127544,
   1847814050463011016, 2177327727835720531, 2830643537854262169, 3796741975233480872,
   4115178125766777443, 5681478168544905931, 6601373596472566643, 7507060721942968483,
   8399075790359081724, 8693463985226723168, 9568029438360202098, 10144078919501101548,
   10430055236837252648, 11840083180663258601, 13761210420658862357, 14299343276471374635,
   14566680578165727644, 15097957966210449927, 16922976911328602910, 17689382322260857208,
   500013540394364858, 748580250866718886, 1242879168328830382, 1977374033974150939,
   2944078676154940804, 3659926193048069267, 4368137639120453308, 4836135668995329356,
   5532061633213252278, 6448918945643986474, 6902733635092675308, 7801388544844847127]

/-- SHA-512 initial hash state. -/
def H512 : List Nat :=
  [7640891576956012808, 13503953896175478587, 4354685564936845355, 11912009170470909681,
   5840696475078001361, 11170449401992604703, 2270897969802886507, 6620516959819538809]

/-- Extend a 16-word SHA-512 block to the 80-word message schedule. -/
def sha512Extend : Nat → List Nat → List Nat
  | 0, w => w
  | n + 1, w =>
      let i := w.length
      let s0 :=
        rotr64 (wget w (i - 15)) 1 ^^^ rotr64 (wget w (i - 15)) 8 ^^^ (wget w (i - 15) >>> 7)
      let s1 :=
        rotr64 (wget w (i - 2)) 19 ^^^ rotr64 (wget w (i - 2)) 61 ^^^ (wget w (i - 2) >>> 6)
      sha512Extend n (w ++ [w64 (wget w (i - 16) + s0 + wget w (i - 7) + s1)])

/-- One SHA-512 compression round on the 8-word working state. -/
def sha512Round (k wi : Nat) : List Nat → List Nat
  | [a, b, c, d, e, f, g, h] =>
      let S1 := rotr64 e 14 ^^^ rotr64 e 18 ^^^ rotr64 e 41
      let ch := (e &&& f) ^^^ ((18446744073709551615 - e) &&& g)
      let t1 := w64 (h + S1 + ch + k + wi)
      let S0 := rotr64 a 28 ^^^ rotr64 a 34 ^^^ rotr64 a 39
      let maj := (a &&& b) ^^^ (a &&& c) ^^^ (b &&& c)
      let t2 := w64 (S0 + maj)
      [w64 (t1 + t2), a, b, c, w64 (d + t1), e, f, g]
  | st => st

/-- Compress one 16-word block into the running SHA-512 state. -/
def sha512Compress (h block : List Nat) : List Nat :=
  let w := sha512Extend 64 block
  let st := (K512.zip w).foldl (fun st kw => sha512Round kw.1 kw.2 st) h
  List.zipWith (fun x y => w64 (x + y)) h st

/-- Fold the SHA-512 compression over the padded word stream,
16 words per block. -/
def sha512Fold (h : List Nat) : List Nat → List Nat
  | w0 :: w1 :: w2 :: w3 :: w4 :: w5 :: w6 :: w7 ::
    w8 :: w9 :: w10 :: w11 :: w12 :: w13 :: w14 :: w15 :: rest =>
      sha512Fold
        (sha512Compress h
          [w0, w1, w2, w3, w4, w5, w6, w7, w8, w9, w10, w11, w12, w13, w14, w15]) rest
  | _ => h

/-- SHA-512 padding: `128`, zeros to 112 mod 128, 16-byte bit length. -/
def sha512Pad (msg : List Nat) : List Nat :=
  msg ++ [128] ++ List.replicate ((128 - (msg.length + 17) % 128) % 128) 0
      ++ beBytes 16 (msg.length * 8)

/-- SHA-512 of a byte list (`hashlib.sha512(...).digest()`). -/
def sha512 (msg : List Nat) : List Nat :=
  (sha512Fold H512 (toWords64 (sha512Pad msg))).foldr (fun wd acc => beBytes 8 wd ++ acc) []

/-- `hmac.new(key, msg, hashlib.sha512).digest()` (RFC 2104, block size 128). -/
def hmacSha512 (key msg : List Nat) : List Nat :=
  let k0 := if key.length > 128 then sha512 key else key
  let k1 := k0 ++ List.replicate (128 - k0.length) 0
  let ipadded := k1.map (fun b => b ^^^ 54)
  let opadded := k1.map (fun b => b ^^^ 92)
  sha512 (opadded ++ sha512 (ipadded ++ msg))

/-- The standard base64 alphabet. -/
def b64Alphabet : List Char :=
  "ABCDEFGHIJKLMNOPQRSTUVWXYZabcdefghijklmnopqrstuvwxyz0123456789+/".data

/-- The base64 character for a 6-bit value. -/
def b64Char (n : Nat) : Char := b64Alphabet.getD n 'A'

/-- `base64.b64encode` of a byte list (as characters, with `=` padding). -/
def b64encode : List Nat → List Char
  | [] => []
  | [b0] =>
      let n := b0 * 65536
      [b64Char (n / 262144), b64Char (n / 4096 % 64), '=', '=']
  | [b0, b1] =>
      let n := b0 * 65536 + b1 * 256
      [b64Char (n / 262144), b64Char (n / 4096 % 64), b64Char (n / 64 % 64), '=']
  | b0 :: b1 :: b2 :: rest =>
      let n := (b0 * 256 + b1) * 256 + b2
      b64Char (n / 262144) :: b64Char (n / 4096 % 64) :: b64Char (n / 64 % 64)
        :: b64Char (n % 64) :: b64encode rest

/-- Decode a run of 6-bit values into bytes; a leftover of one value has no
whole byte and is a padding error (`none`). -/
def b64DecodeQuads : List Nat → Option (List Nat)
  | [] => some []
  | [_] => none
  | [a, b] => some [a * 4 + b / 16]
  | [a, b, c] => some [a * 4 + b / 16, b % 16 * 16 + c / 4]
  | a :: b :: c :: d :: rest => do
      let tail ← b64DecodeQuads rest
      some ((a * 4 + b / 16) :: (b % 16 * 16 + c / 4) :: (c % 4 * 64 + d) :: tail)

/-- `base64.b64decode` in its default non-validating mode: characters outside
the alphabet are discarded, `=` ends the data, and a dangling single data
character is a `binascii.Error` (modelled as `none`). -/
def b64decode (s : String) : Option (List Nat) :=
  let kept := s.data.filter (fun c => c ∈ b64Alphabet ∨ c = '=')
  let dataChars := kept.takeWhile (fun c => c ≠ '=')
  b64DecodeQuads (dataChars.filterMap (fun c => b64Alphabet.findIdx? (fun x => x = c)))

/-- UTF-8 encoding of one character. -/
def charUtf8 (c : Char) : List Nat :=
  let n := c.toNat
  if n < 128 then [n]
  else if n < 2048 then [192 ||| (n >>> 6), 128 ||| (n &&& 63)]
  else if n < 65536 then
    [224 ||| (n >>> 12), 128 ||| (n >>> 6 &&& 63), 128 ||| (n &&& 63)]
  else
    [240 ||| (n >>> 18), 128 ||| (n >>> 12 &&& 63), 128 ||| (n >>> 6 &&& 63),
     128 ||| (n &&& 63)]

/-- `challenge.encode('utf8')`. -/
def utf8Encode (s : String) : List Nat :=
  s.data.foldr (fun c acc => charUtf8 c ++ acc) []

/-- `FuturesWsClientCl._get_sign_challenge`, statement by statement:
SHA-256 of the utf8-encoded challenge, HMAC-SHA512 keyed with the
base64-decoded secret, base64-encoded and decoded back to `str`.
A `binascii` raise from `b64decode` becomes `none`. -/
def get_sign_challenge (secret : String) (challenge : String) : Option String :=
  let sha256_digest := sha256 (utf8Encode challenge)
  (b64decode secret).map
    (fun key => String.mk (b64encode (hmacSha512 key sha256_digest)))

/-- Modelled from the spec's formula (§4.3):
`signedChallenge = base64(HMAC-SHA512(secretKeyBytes, SHA256(rawChallenge)))`
where `secretKeyBytes` is the base64-decoded API secret. -/
def specSignedChallenge (secret : String) (rawChallenge : String) : Option String :=
  (b64decode secret).map
    (fun secretKeyBytes =>
      String.mk (b64encode (hmacSha512 secretKeyBytes (sha256 (utf8Encode rawChallenge)))))

/-- One application-level operation against the registry: an inbound
`"subscribed"` ack (add) or `"unsubscribed"` ack (remove). -/
inductive RegOp where
  | add (m : Frame)
  | del (m : Frame)

/-- Replay a sequence of acks against a registry state. -/
def applyOps (pub priv : List String) : List RegOp → List Sub → Except String (List Sub)
  | [], subs => .ok subs
  | .add m :: rest, subs => do applyOps pub priv rest (← append_subscription pub priv m subs)
  | .del m :: rest, subs => do applyOps pub priv rest (← remove_subscription pub priv m subs)

/-! ### Client state and the receive loop -/

/-- The mutable attributes of `ConnectFuturesWebsocket` that the embedded
operations read and write. -/
structure ClientState where
  reconnect_num : Nat
  last_challenge : Option String
  new_challenge : Option String
  challenge_ready : Bool
  socket_open : Bool
  subscriptions : List Sub
deriving DecidableEq, Repr

/-- Lines 71–72 of `__run`, executed at the start of every connection attempt:
`self.__new_challenge = None; self.__last_challenge = None`.  No other
attribute is touched there; in particular `__challenge_ready` and
`__subscriptions` keep their previous values. -/
def runStartReset (st : ClientState) : ClientState :=
  { st with new_challenge := none, last_challenge := none }

/-- Lines 78–82 of `__run`, after `websockets.connect` succeeds: the socket is
stored, the open event is set and `__reconnect_num` is zeroed. -/
def onOpen (st : ClientState) : ClientState :=
  { st with socket_open := true, reconnect_num := 0 }

/-- The full state change performed by `__run` up to the top of its receive
loop when the socket opens. -/
def newSocketState (st : ClientState) : ClientState := onOpen (runStartReset st)

/-- What the receive loop hands to the application callback: a pass-through
frame, or a synthetic `{"error": ...}` notice. -/
inductive Delivery where
  | msg (m : Frame)
  | errNotice (s : String)
deriving DecidableEq, Repr

/-- `__handle_new_challenge` plus the frame classification of `__run`
(lines 99–110): decides whether the frame is consumed or forwarded,
updating the challenge state or the subscription registry.  A `ValueError`
raised by `__append_subscription`/`__remove_subscription` escapes (the inner
`try` only guards `json.loads`), as does a `binascii` raise from signing. -/
def handleMsg (pub priv : List String) (secret : String) (st : ClientState) (m : Frame) :
    Except String (ClientState × List Frame) := do
  let step : Except String (ClientState × Bool) :=
    match m.event with
    | none => .ok (st, true)
    | some ev =>
        if ev = "challenge" ∧ m.message.isSome then
          match get_sign_challenge secret (m.message.getD "") with
          | some sig =>
              .ok ({ st with
                      last_challenge := m.message, new_challenge := some sig,
                      challenge_ready := true }, false)
          | none => .error "binascii.Error"
        else if ev = "subscribed" then
          (append_subscription pub priv m st.subscriptions).map
            (fun subs => ({ st with subscriptions := subs }, true))
        else if ev = "unsubscribed" then
          (remove_subscription pub priv m st.subscriptions).map
            (fun subs => ({ st with subscriptions := subs }, true))
        else .ok (st, true)
  let (st', forward) ← step
  .ok (st', if forward then [m] else [])

/-- What one `await`-round of the receive loop observes. -/
inductive RecvIn where
  | timeout                -- asyncio.TimeoutError from the bounded wait
  | cancelled              -- asyncio.CancelledError
  | invalidJson (raw : Nat) -- a frame json.loads rejects (tagged opaquely)
  | frame (m : Frame)

/-- One iteration of the `while keep_alive` receive loop: a timeout is
swallowed, a cancellation emits an error notice and clears `keep_alive`,
unparsable input is logged and dropped, and a parsed frame goes through the
classification; the returned `Bool` is `keep_alive`. -/
def runIter (pub priv : List String) (secret : String) (st : ClientState) :
    RecvIn → Except String (ClientState × List Delivery × Bool)
  | .timeout => .ok (st, [], true)
  | .cancelled => .ok (st, [.errNotice "asyncio.CancelledError"], false)
  | .invalidJson _ => .ok (st, [], true)
  | .frame m =>
      (handleMsg pub priv secret st m).map
        (fun p => (p.1, p.2.map Delivery.msg, true))

/-- The receive loop folded over a list of observed inputs, collecting the
callback deliveries in processing order; stops when `keep_alive` is cleared
and propagates an escaping exception. -/
def runLoop (pub priv : List String) (secret : String) (st : ClientState) :
    List RecvIn → Except String (ClientState × List Delivery)
  | [] => .ok (st, [])
  | i :: rest => do
      let (st', ds, keep) ← runIter pub priv secret st i
      if keep then
        let (st'', ds') ← runLoop pub priv secret st' rest
        .ok (st'', ds ++ ds')
      else .ok (st', ds)

/-! ### Backoff policy -/

/-- Python's built-in `round`: round half to even. -/
def pyRound (q : ℚ) : ℤ :=
  if q - ⌊q⌋ < 1 / 2 then ⌊q⌋
  else if q - ⌊q⌋ > 1 / 2 then ⌊q⌋ + 1
  else if ⌊q⌋ % 2 = 0 then ⌊q⌋ else ⌊q⌋ + 1

/-- `ConnectFuturesWebsocket.__get_reconnect_wait`:
`round(random() * min(60 * 3, (2 ** attempts) - 1) + 1)`; the draw of
`random()` is made explicit as the parameter `r`. -/
def get_reconnect_wait (attempts : Nat) (r : ℚ) : ℤ :=
  pyRound (r * min (60 * 3) ((2 : ℚ) ^ attempts - 1) + 1)

/-! ### The reconnect loop -/

/-- `ConnectFuturesWebsocket.MAX_RECONNECT_NUM`. -/
def MAX_RECONNECT_NUM : Nat := 2

/-- Callback notices produced by the reconnect machinery. -/
inductive Notice where
  | attemptError   -- the {"error": message} emitted when a task raised
  | maxReconnect   -- {"error": "kraken.exceptions.KrakenException.MaxReconnectError"}
deriving DecidableEq, Repr

/-- Externally observable events of `__run_forever`/`__reconnect`. -/
inductive Ev where
  | backoffSleep (num : Nat) -- await asyncio.sleep(__get_reconnect_wait(num))
  | connectAttempt           -- the __run/__recover task pair is scheduled
  | cancelSibling            -- the pending sibling task is cancelled
  | notice (n : Notice)      -- a callback delivery
  | markFailed               -- finally: self.__client.exception_occur = True
deriving DecidableEq, Repr

/-- The events of one `__reconnect` call whose connection attempt fails:
after the counter was incremented to `num + 1` (below the ceiling), the
backoff sleep runs, the task pair is scheduled, the first task exception
cancels the pending sibling and one error notice is sent, then the join loop
breaks and `__reconnect` returns to the `while True` loop. -/
def reconnectFailEvents (num : Nat) : List Ev :=
  [.backoffSleep (num + 1), .connectAttempt, .cancelSibling, .notice .attemptError]

/-- `__run_forever` from counter value `num` in a run where every connection
attempt fails: each `__reconnect` call increments the counter, raising
`MaxReconnectError` at the ceiling — caught by `__run_forever`, which emits
the single terminal notice and marks the client failed. -/
def runForeverFailTrace (num : Nat) : List Ev :=
  if MAX_RECONNECT_NUM ≤ num + 1 then [.notice .maxReconnect, .markFailed]
  else reconnectFailEvents num ++ runForeverFailTrace (num + 1)
  termination_by MAX_RECONNECT_NUM - num
  decreasing_by omega

/-! ### Replay of the registry after reconnect -/

/-- Observable actions of `__recover_subscription_req_msg`. -/
inductive ReplayAct where
  | waitOpen
  | sendPrivate (s : Sub)  -- send_message(deepcopy(sub), private=True)
  | sendPublic (s : Sub)   -- send_message(deepcopy(sub), private=False)
deriving DecidableEq, Repr

/-- The `for sub in self.__subscriptions` loop of
`__recover_subscription_req_msg`: `sub["feed"]` (a `KeyError` when the stored
dict has no feed), membership in the private catalog first, then the public
catalog; a feed in neither sends nothing for that entry. -/
def recoverSends (priv pub : List String) : List Sub → Except String (List ReplayAct)
  | [] => .ok []
  | s :: rest =>
      match s.feed with
      | none => .error "KeyError: feed"
      | some f => do
          let tail ← recoverSends priv pub rest
          if f ∈ priv then .ok (.sendPrivate s :: tail)
          else if f ∈ pub then .ok (.sendPublic s :: tail)
          else .ok tail

/-- `__recover_subscription_req_msg`: suspends on the open event
(`await event.wait()`), then walks the registry in order. -/
def recover_subscription_req_msg (priv pub : List String) (subs : List Sub) :
    Except String (List ReplayAct) :=
  (recoverSends priv pub subs).map (fun acts => ReplayAct.waitOpen :: acts)

/-! ### The send path as a labelled transition system

`send_message(msg, private=True)` is cooperative code with three suspension
points (socket poll at 400ms, challenge poll at 200ms, the transmits).  Its
control flow, together with the environment events that can interleave at
suspension points, is embedded as a step relation. -/

/-- The connection-level fields `send_message` and its environment touch. -/
structure ConnSt where
  socket_open : Bool
  challenge_ready : Bool
  last_challenge : Option String
  new_challenge : Option String
deriving DecidableEq, Repr

/-- Program points of `send_message(msg, private=True)`. -/
inductive Phase where
  | waitSocket  -- the `while not self.__socket` poll
  | checkAuth   -- the `if private:` credential check
  | polling     -- the `while not self.__challenge_ready` poll
  | attach      -- about to attach api_key/original/signed and transmit
  | done
  | failedAuth  -- the raise ValueError("Cannot access private endpoints...") fired
deriving DecidableEq, Repr

/-- A state of the in-flight send operation. -/
structure SendSt where
  phase : Phase
  conn : ConnSt
deriving DecidableEq, Repr

/-- Messages written to the socket by the send path. -/
inductive OutMsg where
  | challengeRequest (api_key : String)  -- {"event": "challenge", "api_key": ...}
  | privateSubscribe (base : Frame) (api_key : String)
      (original_challenge signed_challenge : Option String)
  | publicSend (base : Frame)
deriving DecidableEq, Repr

/-- Labels on send-path transitions. -/
inductive Act where
  | sleep (ms : Nat)          -- await asyncio.sleep(...)
  | transmit (m : OutMsg)     -- await self.__socket.send(...)
  | raiseAuthError            -- the ValueError for missing credentials
  | tau                       -- internal control transfer
  | envSocketOpens            -- __run stores a connected socket
  | envChallenge (raw : String) -- the receive loop runs __handle_new_challenge
deriving DecidableEq, Repr

/-- Small-step semantics of `send_message(m, private=True)` for a client with
`is_auth = auth`, api key `key` and secret `secret`, interleaved with the two
environment events that other tasks can perform at suspension points. -/
inductive SendStep (auth : Bool) (key secret : String) (m : Frame) :
    SendSt → Act → SendSt → Prop where
  | socketWait (c : ConnSt) : c.socket_open = false →
      SendStep auth key secret m ⟨.waitSocket, c⟩ (.sleep 400) ⟨.waitSocket, c⟩
  | socketReady (c : ConnSt) : c.socket_open = true →
      SendStep auth key secret m ⟨.waitSocket, c⟩ .tau ⟨.checkAuth, c⟩
  | noAuth (c : ConnSt) : auth = false →
      SendStep auth key secret m ⟨.checkAuth, c⟩ .raiseAuthError ⟨.failedAuth, c⟩
  | authReady (c : ConnSt) : auth = true → c.challenge_ready = true →
      SendStep auth key secret m ⟨.checkAuth, c⟩ .tau ⟨.attach, c⟩
  | authNotReady (c : ConnSt) : auth = true → c.challenge_ready = false →
      SendStep auth key secret m ⟨.checkAuth, c⟩
        (.transmit (.challengeRequest key)) ⟨.polling, c⟩
  | pollSleep (c : ConnSt) : c.challenge_ready = false →
      SendStep auth key secret m ⟨.polling, c⟩ (.sleep 200) ⟨.polling, c⟩
  | pollDone (c : ConnSt) : c.challenge_ready = true →
      SendStep auth key secret m ⟨.polling, c⟩ .tau ⟨.attach, c⟩
  | doSend (c : ConnSt) :
      SendStep auth key secret m ⟨.attach, c⟩
        (.transmit (.privateSubscribe m key c.last_challenge c.new_challenge)) ⟨.done, c⟩
  | envOpen (p : Phase) (c : ConnSt) :
      SendStep auth key secret m ⟨p, c⟩ .envSocketOpens ⟨p, { c with socket_open := true }⟩
  | envChal (p : Phase) (c : ConnSt) (raw sig : String) :
      get_sign_challenge secret raw = some sig →
      SendStep auth key secret m ⟨p, c⟩ (.envChallenge raw)
        ⟨p, { c with
                last_challenge := some raw, new_challenge := some sig,
                challenge_ready := true }⟩

/-- Reflexive-transitive closure of `SendStep`, collecting the labels. -/
inductive SendTrace (auth : Bool) (key secret : String) (m : Frame) :
    SendSt → List Act → SendSt → Prop where
  | refl (s : SendSt) : SendTrace auth key secret m s [] s
  | step (s : SendSt) (a : Act) (s' : SendSt) (acts : List Act) (s'' : SendSt) :
      SendStep auth key secret m s a s' →
      SendTrace auth key secret m s' acts s'' →
      SendTrace auth key secret m s (a :: acts) s''

/-! ## Helper lemmas -/

/-- Python `round` never moves further than to the floor or the floor plus
one. -/
theorem pyRound_bounds (q : ℚ) : ⌊q⌋ ≤ pyRound q ∧ pyRound q ≤ ⌊q⌋ + 1 := by
  unfold pyRound
  split_ifs <;> omega

/-- Concrete fixture: a valid base64 secret
(`base64.b64encode(b"kraken-test-secret-0123456789")`). -/
def vecSecret : String := "a3Jha2VuLXRlc3Qtc2VjcmV0LTAxMjM0NTY3ODk="

/-- Concrete fixture: a server-issued challenge nonce. -/
def vecChallenge : String := "c100b894-1729-464d-ace1-e8b4b4db4e8d"

/-- Signature of `vecChallenge` under `vecSecret`, as produced by Python's
`base64.b64encode(hmac.new(base64.b64decode(secret), sha256(nonce).digest(),
hashlib.sha512).digest()).decode()`. -/
def vecSignature : String :=
  "LjL2vSkk7K8elaK1LPgdej3rQ+tvHK4Ka8q+Kwq6jg7Milav4jpEcQBZhDJwm4RJshWtNvEEnSPQCFlPbAkfHQ=="

set_option maxRecDepth 200000 in
/-- The embedded signing pipeline reproduces the known vector computed with
Python's `hashlib`/`hmac`/`base64` on the same inputs, validating the SHA-256,
HMAC-SHA512 and base64 embeddings end to end. -/
theorem get_sign_challenge_vector :
    get_sign_challenge vecSecret vecChallenge = some vecSignature := by decide

/-! ## Claims -/

/-- C3: for every secret string and every nonce string, the signed challenge
computed by `FuturesWsClientCl._get_sign_challenge` equals the spec's formula
`base64(HMAC-SHA512(base64decode(secret), SHA256(nonce)))`, and the result is
a pure deterministic function of `(secret, nonce)`: equal inputs give equal
signatures. -/
theorem sign_challenge_spec_and_pure :
    ∀ secret challenge secret2 challenge2 : String,
      get_sign_challenge secret challenge = specSignedChallenge secret challenge ∧
      (secret = secret2 → challenge = challenge2 →
        get_sign_challenge secret challenge = get_sign_challenge secret2 challenge2) := by
  intro secret challenge secret2 challenge2
  refine ⟨rfl, ?_⟩
  intro h1 h2
  rw [h1, h2]

/-- Witness for C3 at the concrete fixture inputs. -/
theorem sign_challenge_spec_and_pure_witness :
    get_sign_challenge vecSecret vecChallenge = specSignedChallenge vecSecret vecChallenge ∧
    get_sign_challenge vecSecret vecChallenge = get_sign_challenge vecSecret vecChallenge :=
  ⟨(sign_challenge_spec_and_pure vecSecret vecChallenge vecSecret vecChallenge).1,
   (sign_challenge_spec_and_pure vecSecret vecChallenge vecSecret vecChallenge).2 rfl rfl⟩

/-- A client state as left by a previous connection on which the challenge
handshake had completed, about to be reused by a reconnect. -/
def preReconnectState : ClientState :=
  { reconnect_num := 1
    last_challenge := some "old-nonce"
    new_challenge := some "old-signature"
    challenge_ready := true
    socket_open := false
    subscriptions := [{ feed := some "ticker", product_ids := some ["PI_XBTUSD"] }] }

/-- C9: opening a new socket leaves the subscription registry untouched and
clears the raw and signed challenge — but, against the claim (and §3 of the
spec, which wants the whole per-connection `ChallengeState` rebuilt),
`__challenge_ready` is NOT reset: `__run` only assigns `__new_challenge` and
`__last_challenge`.  On `preReconnectState` the new socket starts with
`challenge_ready = true` while both challenge strings are `none`, so the next
private send skips the handshake and attaches null challenges. -/
theorem challenge_ready_survives_new_socket :
    (∀ st : ClientState,
        (newSocketState st).subscriptions = st.subscriptions ∧
        (runStartReset st).subscriptions = st.subscriptions ∧
        (newSocketState st).last_challenge = none ∧
        (newSocketState st).new_challenge = none ∧
        (newSocketState st).challenge_ready = st.challenge_ready) ∧
    (newSocketState preReconnectState).challenge_ready = true ∧
    (newSocketState preReconnectState).last_challenge = none ∧
    (newSocketState preReconnectState).new_challenge = none ∧
    (newSocketState preReconnectState).subscriptions = preReconnectState.subscriptions := by
  refine ⟨fun st => ⟨rfl, rfl, rfl, rfl, rfl⟩, rfl, rfl, rfl, rfl⟩

/-- C5: for every attempt count `n ≥ 1` and draw `r ∈ [0, 1)`, the backoff
wait of `__get_reconnect_wait` equals `round(r * min(180, 2^n - 1) + 1)` and
always lies in `[1, 181]` seconds; being a function of `(n, r)` it is
deterministic for a fixed random seed. -/
theorem backoff_wait_bounds :
    ∀ (attempts : Nat) (r : ℚ), 1 ≤ attempts → 0 ≤ r → r < 1 →
      get_reconnect_wait attempts r
          = pyRound (r * min 180 ((2 : ℚ) ^ attempts - 1) + 1) ∧
      1 ≤ get_reconnect_wait attempts r ∧ get_reconnect_wait attempts r ≤ 181 := by
  intro n r hn hr0 hr1
  have hform : get_reconnect_wait n r = pyRound (r * min 180 ((2 : ℚ) ^ n - 1) + 1) := by
    norm_num [get_reconnect_wait]
  refine ⟨hform, ?_⟩
  set m : ℚ := min 180 ((2 : ℚ) ^ n - 1) with hm
  have h2n : (2 : ℚ) ≤ (2 : ℚ) ^ n := by
    calc (2 : ℚ) = 2 ^ 1 := (pow_one 2).symm
    _ ≤ 2 ^ n := pow_le_pow_right₀ one_le_two hn
  have hm1 : 1 ≤ m := le_min (by norm_num) (by linarith)
  have hm180 : m ≤ 180 := min_le_left _ _
  have hx1 : (1 : ℚ) ≤ r * m + 1 := by nlinarith
  have hx181 : r * m + 1 < 181 := by nlinarith
  have hf1 : (1 : ℤ) ≤ ⌊r * m + 1⌋ := Int.le_floor.mpr (by exact_mod_cast hx1)
  have hf180 : ⌊r * m + 1⌋ ≤ 180 := by
    have := Int.floor_lt.mpr (show r * m + 1 < ((181 : ℤ) : ℚ) by exact_mod_cast hx181)
    omega
  have hb := pyRound_bounds (r * m + 1)
  rw [hform]
  constructor
  · omega
  · omega

/-- Witness for C5 at `attempts = 1`, `r = 0`. -/
theorem backoff_wait_bounds_witness :
    get_reconnect_wait 1 0 = pyRound ((0 : ℚ) * min 180 ((2 : ℚ) ^ 1 - 1) + 1) ∧
    1 ≤ get_reconnect_wait 1 0 ∧ get_reconnect_wait 1 0 ≤ 181 :=
  backoff_wait_bounds 1 0 le_rfl le_rfl (by norm_num)

/-- Unfolding `append_subscription` when the ack is well-formed. -/
theorem append_subscription_eq {pub priv : List String} {m : Frame} {s : Sub}
    (subs : List Sub) (hb : build_subscription pub priv m = .ok s) :
    append_subscription pub priv m subs = .ok (subs.filter (fun x => x ≠ s) ++ [s]) := by
  simp [append_subscription, remove_subscription, hb, bind, Except.bind, pure, Except.pure]

/-- Unfolding `remove_subscription` when the ack is well-formed. -/
theorem remove_subscription_eq {pub priv : List String} {m : Frame} {s : Sub}
    (subs : List Sub) (hb : build_subscription pub priv m = .ok s) :
    remove_subscription pub priv m subs = .ok (subs.filter (fun x => x ≠ s)) := by
  simp [remove_subscription, hb, bind, Except.bind, pure, Except.pure]

/-- A deduplicating append preserves `Nodup`. -/
theorem nodup_filter_append (subs : List Sub) (s : Sub) (h : subs.Nodup) :
    (subs.filter (fun x => x ≠ s) ++ [s]).Nodup := by
  refine (h.filter _).append (List.nodup_singleton s) ?_
  intro a ha hs
  rw [List.mem_singleton] at hs
  subst hs
  have := List.of_mem_filter ha
  simp at this

/-- Registry invariant: replaying any ack sequence from a `Nodup` registry
keeps it `Nodup`. -/
theorem applyOps_nodup (pub priv : List String) :
    ∀ (ops : List RegOp) (subs0 subs : List Sub), subs0.Nodup →
      applyOps pub priv ops subs0 = .ok subs → subs.Nodup := by
  intro ops
  induction ops with
  | nil =>
      intro subs0 subs h0 happ
      simp [applyOps] at happ
      exact happ ▸ h0
  | cons op rest ih =>
      intro subs0 subs h0 happ
      cases op with
      | add m =>
          cases hb : build_subscription pub priv m with
          | error e =>
              rw [show applyOps pub priv (RegOp.add m :: rest) subs0
                    = Except.error e from by
                  simp [applyOps, append_subscription, remove_subscription, hb,
                        bind, Except.bind]] at happ
              exact absurd happ (by simp)
          | ok s =>
              rw [show applyOps pub priv (RegOp.add m :: rest) subs0
                    = applyOps pub priv rest (subs0.filter (fun x => x ≠ s) ++ [s]) from by
                  simp [applyOps, append_subscription_eq subs0 hb, bind, Except.bind, pure, Except.pure]] at happ
              exact ih _ _ (nodup_filter_append subs0 s h0) happ
      | del m =>
          cases hb : build_subscription pub priv m with
          | error e =>
              rw [show applyOps pub priv (RegOp.del m :: rest) subs0
                    = Except.error e from by
                  simp [applyOps, remove_subscription, hb, bind, Except.bind, pure, Except.pure]] at happ
              exact absurd happ (by simp)
          | ok s =>
              rw [show applyOps pub priv (RegOp.del m :: rest) subs0
                    = applyOps pub priv rest (subs0.filter (fun x => x ≠ s)) from by
                  simp [applyOps, remove_subscription_eq subs0 hb, bind, Except.bind, pure, Except.pure]] at happ
              exact ih _ _ (h0.filter _) happ

/-- C4: for every sequence of `"subscribed"`/`"unsubscribed"` acks replayed
against the initially empty registry, the registry never holds two
structurally-equal entries (entry identity being structural equality of the
stored dict — its `feed` and normalised product scope, with visibility
determined by which catalog the feed is in); an add removes any
structurally-equal entry before appending (so a re-add moves the entry to the
most-recent position), and a remove of an absent entry leaves the registry
unchanged. -/
theorem registry_never_duplicates :
    (∀ (pub priv : List String) (ops : List RegOp) (subs : List Sub),
        applyOps pub priv ops [] = .ok subs → subs.Nodup) ∧
    (∀ (pub priv : List String) (m : Frame) (subs : List Sub) (s : Sub),
        build_subscription pub priv m = .ok s →
        append_subscription pub priv m subs
          = .ok (subs.filter (fun x => x ≠ s) ++ [s])) ∧
    (∀ (pub priv : List String) (m : Frame) (subs : List Sub) (s : Sub),
        build_subscription pub priv m = .ok s → s ∉ subs →
        remove_subscription pub priv m subs = .ok subs) := by
  refine ⟨?_, ?_, ?_⟩
  · intro pub priv ops subs happ
    exact applyOps_nodup pub priv ops [] subs List.nodup_nil happ
  · intro pub priv m subs s hb
    exact append_subscription_eq subs hb
  · intro pub priv m subs s hb habs
    rw [remove_subscription_eq subs hb]
    congr 1
    refine List.filter_eq_self.mpr ?_
    intro a ha
    simp only [ne_eq, decide_eq_true_eq]
    intro h
    exact habs (h ▸ ha)

/-- A concrete ack for the public `"ticker"` feed. -/
def tickerAck : Frame :=
  { event := some "subscribed", message := none, feed := some "ticker",
    product_ids := some (.listed ["PI_XBTUSD"]), rest := 0 }

/-- Witness for C4: a double add of the same ack followed by a remove of an
absent entry, on the concrete `"ticker"` catalogs. -/
theorem registry_never_duplicates_witness :
    (∃ subs, applyOps ["ticker"] ["fills"] [.add tickerAck, .add tickerAck] [] = .ok subs
        ∧ subs.Nodup) ∧
    append_subscription ["ticker"] ["fills"] tickerAck
        [⟨some "book", none⟩]
      = .ok ([⟨some "book", none⟩].filter
          (fun x => x ≠ ⟨some "ticker", some ["PI_XBTUSD"]⟩)
          ++ [⟨some "ticker", some ["PI_XBTUSD"]⟩]) ∧
    remove_subscription ["ticker"] ["fills"] tickerAck [⟨some "book", none⟩]
      = .ok [⟨some "book", none⟩] := by
  refine ⟨⟨[⟨some "ticker", some ["PI_XBTUSD"]⟩], rfl, ?_⟩, ?_, ?_⟩
  · exact registry_never_duplicates.1 ["ticker"] ["fills"]
      [.add tickerAck, .add tickerAck] _ rfl
  · exact registry_never_duplicates.2.1 ["ticker"] ["fills"] tickerAck
      [⟨some "book", none⟩] ⟨some "ticker", some ["PI_XBTUSD"]⟩ rfl
  · exact registry_never_duplicates.2.2 ["ticker"] ["fills"] tickerAck
      [⟨some "book", none⟩] ⟨some "ticker", some ["PI_XBTUSD"]⟩ rfl (by decide)

/-- The routing the spec prescribes for replay: an entry whose feed is in the
private catalog goes through the private send path, any other entry through
the public path. -/
def replayRoute (priv : List String) (s : Sub) : ReplayAct :=
  match s.feed with
  | some f => if f ∈ priv then .sendPrivate s else .sendPublic s
  | none => .sendPublic s

/-- The replay loop resends exactly the registry, in order, when every stored
feed is in one of the catalogs. -/
theorem recoverSends_eq (priv pub : List String) :
    ∀ subs : List Sub, (∀ s ∈ subs, ∃ f, s.feed = some f ∧ (f ∈ priv ∨ f ∈ pub)) →
      recoverSends priv pub subs = .ok (subs.map (replayRoute priv)) := by
  intro subs
  induction subs with
  | nil => intro _; rfl
  | cons s rest ih =>
      intro h
      obtain ⟨f, hf, hcat⟩ := h s (List.mem_cons_self s rest)
      have hrest := ih (fun x hx => h x (List.mem_cons_of_mem s hx))
      by_cases hp : f ∈ priv
      · simp [recoverSends, hf, hrest, hp, replayRoute, bind, Except.bind]
      · have hpub : f ∈ pub := hcat.resolve_left hp
        simp [recoverSends, hf, hrest, hp, hpub, replayRoute, bind, Except.bind]

/-- C6: replay first suspends on the "open" signal, then re-sends every
currently-registered subscription exactly once, in registry order, routing an
entry through the private send path when its feed is in the private catalog
and through the public send path when its feed is in the public catalog
(the catalogs being disjoint, as the client supplies them). -/
theorem replay_resends_in_order :
    ∀ (priv pub : List String) (subs : List Sub),
      (∀ s ∈ subs, ∃ f, s.feed = some f ∧ (f ∈ priv ∨ f ∈ pub)) →
      (∀ f, f ∈ priv → f ∉ pub) →
      recover_subscription_req_msg priv pub subs
          = .ok (ReplayAct.waitOpen :: subs.map (replayRoute priv)) ∧
      (∀ s ∈ subs, ∀ f, s.feed = some f →
        (f ∈ priv → replayRoute priv s = .sendPrivate s) ∧
        (f ∈ pub → replayRoute priv s = .sendPublic s)) := by
  intro priv pub subs hfeeds hdisj
  constructor
  · simp [recover_subscription_req_msg, recoverSends_eq priv pub subs hfeeds, Except.map]
  · intro s _ f hf
    constructor
    · intro hp
      simp [replayRoute, hf, hp]
    · intro hpub
      have hnp : f ∉ priv := fun hp => hdisj f hp hpub
      simp [replayRoute, hf, hnp]

/-- Witness for C6: one public and one private entry against the catalogs
`pub = ["ticker"]`, `priv = ["fills"]`. -/
theorem replay_resends_in_order_witness :
    recover_subscription_req_msg ["fills"] ["ticker"]
        [⟨some "ticker", some ["PI_XBTUSD"]⟩, ⟨some "fills", none⟩]
      = .ok [ReplayAct.waitOpen,
             ReplayAct.sendPublic ⟨some "ticker", some ["PI_XBTUSD"]⟩,
             ReplayAct.sendPrivate ⟨some "fills", none⟩] := by
  have h := (replay_resends_in_order ["fills"] ["ticker"]
      [⟨some "ticker", some ["PI_XBTUSD"]⟩, ⟨some "fills", none⟩]
      (by
        intro s hs
        simp only [List.mem_cons, List.mem_singleton, List.not_mem_nil, or_false] at hs
        rcases hs with rfl | rfl
        · exact ⟨"ticker", rfl, Or.inr (by decide)⟩
        · exact ⟨"fills", rfl, Or.inl (by decide)⟩)
      (by
        intro f hf hc
        simp only [List.mem_singleton] at hf
        subst hf
        exact absurd hc (by decide))).1
  rw [h]
  rfl

/-- Unfolding equation of the all-attempts-fail run loop. -/
theorem runForeverFailTrace_eq (num : Nat) :
    runForeverFailTrace num
      = if MAX_RECONNECT_NUM ≤ num + 1
        then [.notice .maxReconnect, .markFailed]
        else reconnectFailEvents num ++ runForeverFailTrace (num + 1) := by
  rw [runForeverFailTrace]

/-- C1: in a run where every connection attempt fails, the loop attempts
connections exactly until the counter (incremented once per `__reconnect`
call, reset only by a successful open) reaches the ceiling of 2: from the
constructor's initial counter 0 the full event trace is one backoff sleep,
one connection attempt with its failure notice, then the single terminal
`MaxReconnectError` notice and the `exception_occur` mark — and for every
starting counter the trace ends with exactly one terminal notice followed
only by the failure mark, with no connection attempt after it. -/
theorem reconnect_ceiling_exhaustion :
    runForeverFailTrace 0
      = [Ev.backoffSleep 1, Ev.connectAttempt, Ev.cancelSibling,
         Ev.notice Notice.attemptError, Ev.notice Notice.maxReconnect, Ev.markFailed] ∧
    ∀ num : Nat, ∃ pre : List Ev,
      runForeverFailTrace num = pre ++ [Ev.notice Notice.maxReconnect, Ev.markFailed] ∧
      Ev.notice Notice.maxReconnect ∉ pre ∧ Ev.markFailed ∉ pre ∧
      pre.count Ev.connectAttempt = MAX_RECONNECT_NUM - 1 - num := by
  have h0 : runForeverFailTrace 0
      = [Ev.backoffSleep 1, Ev.connectAttempt, Ev.cancelSibling,
         Ev.notice Notice.attemptError, Ev.notice Notice.maxReconnect, Ev.markFailed] := by
    rw [runForeverFailTrace_eq 0, runForeverFailTrace_eq 1]
    simp [MAX_RECONNECT_NUM, reconnectFailEvents]
  refine ⟨h0, ?_⟩
  intro num
  rcases Nat.lt_or_ge (num + 1) MAX_RECONNECT_NUM with hlt | hge
  · have hnum : num = 0 := by
      simp [MAX_RECONNECT_NUM] at hlt
      omega
    subst hnum
    refine ⟨[Ev.backoffSleep 1, Ev.connectAttempt, Ev.cancelSibling,
             Ev.notice Notice.attemptError], ?_, by decide, by decide, by decide⟩
    rw [h0]
    rfl
  · refine ⟨[], ?_, by decide, by decide, ?_⟩
    · rw [runForeverFailTrace_eq num, if_pos hge]
      rfl
    · simp [MAX_RECONNECT_NUM] at hge ⊢
      omega

/-- The fresh client state built by the constructor. -/
def emptyState : ClientState :=
  { reconnect_num := 0, last_challenge := none, new_challenge := none,
    challenge_ready := false, socket_open := false, subscriptions := [] }

/-- C10: an inbound `"subscribed"`/`"unsubscribed"` frame with no `"feed"`
key makes the registry update raise `ValueError`, which escapes the receive
loop (unlike a non-JSON frame, which is logged and dropped with the loop
continuing), so the connection attempt fails as a whole: the sibling task is
cancelled, an error notice is emitted, and the reconnect loop is re-entered. -/
theorem malformed_ack_valueerror_escapes :
    (∀ (pub priv : List String) (secret : String) (st : ClientState) (m : Frame),
        (m.event = some "subscribed" ∨ m.event = some "unsubscribed") → m.feed = none →
        handleMsg pub priv secret st m = .error missingAttrsMsg) ∧
    (∀ (pub priv : List String) (secret : String) (st : ClientState) (raw : Nat),
        runIter pub priv secret st (.invalidJson raw) = .ok (st, [], true)) ∧
    (∀ num : Nat, num + 1 < MAX_RECONNECT_NUM →
        runForeverFailTrace num
          = Ev.backoffSleep (num + 1) :: Ev.connectAttempt :: Ev.cancelSibling
            :: Ev.notice Notice.attemptError :: runForeverFailTrace (num + 1)) := by
  refine ⟨?_, ?_, ?_⟩
  · intro pub priv secret st m hev hfeed
    rcases hev with hev | hev <;>
      simp [handleMsg, hev, hfeed, append_subscription, remove_subscription,
            build_subscription, bind, Except.bind, Except.map]
  · intro pub priv secret st raw
    rfl
  · intro num hlt
    rw [runForeverFailTrace_eq num, if_neg (by omega)]
    rfl

/-- Witness for C10: a `"subscribed"` ack with no feed on the fresh state. -/
theorem malformed_ack_valueerror_escapes_witness :
    handleMsg [] [] "sec" emptyState
        ⟨some "subscribed", none, none, none, 3⟩ = .error missingAttrsMsg :=
  malformed_ack_valueerror_escapes.1 [] [] "sec" emptyState
    ⟨some "subscribed", none, none, none, 3⟩ (Or.inl rfl) rfl

/-- For an accepted frame, the callback deliveries of the classification are
empty exactly when the frame is a challenge control message carrying a
`"message"` field, and the unmodified frame itself otherwise. -/
theorem handleMsg_deliveries (pub priv : List String) (secret : String)
    (st st' : ClientState) (m : Frame) (ds : List Frame)
    (h : handleMsg pub priv secret st m = .ok (st', ds)) :
    ds = if m.event = some "challenge" ∧ m.message.isSome then [] else [m] := by
  rcases m with ⟨ev, msg, feed, pids, rest⟩
  cases ev with
  | none =>
      simp only [handleMsg, bind, Except.bind] at h
      simp only [Except.ok.injEq, Prod.mk.injEq] at h
      simp [← h.2]
  | some e =>
      by_cases hc : e = "challenge" ∧ (Option.isSome msg : Prop)
      · simp only [handleMsg, bind, Except.bind, if_pos hc] at h
        cases hsig : get_sign_challenge secret (msg.getD "") with
        | none => rw [hsig] at h; exact absurd h (by simp)
        | some sig =>
            rw [hsig] at h
            simp only [Except.ok.injEq, Prod.mk.injEq] at h
            have : (some e = some "challenge" ∧ (Option.isSome msg : Prop)) := by
              exact ⟨by rw [hc.1], hc.2⟩
            rw [if_pos this]
            simp [← h.2]
      · have hcond : ¬(some e = some "challenge" ∧ (Option.isSome msg : Prop)) := by
          intro hx
          exact hc ⟨Option.some.injEq e "challenge" ▸ hx.1, hx.2⟩
        rw [if_neg (by exact_mod_cast hcond)]
        by_cases hs : e = "subscribed"
        · simp only [handleMsg, bind, Except.bind, if_neg hc, if_pos hs] at h
          cases happ : append_subscription pub priv ⟨some e, msg, feed, pids, rest⟩
              st.subscriptions with
          | error er => rw [happ] at h; exact absurd h (by simp [Except.map])
          | ok subs =>
              rw [happ] at h
              simp only [Except.map, Except.ok.injEq, Prod.mk.injEq] at h
              simp [← h.2]
        · by_cases hu : e = "unsubscribed"
          · simp only [handleMsg, bind, Except.bind, if_neg hc, if_neg hs, if_pos hu] at h
            cases hrem : remove_subscription pub priv ⟨some e, msg, feed, pids, rest⟩
                st.subscriptions with
            | error er => rw [hrem] at h; exact absurd h (by simp [Except.map])
            | ok subs =>
                rw [hrem] at h
                simp only [Except.map, Except.ok.injEq, Prod.mk.injEq] at h
                simp [← h.2]
          · simp only [handleMsg, bind, Except.bind, if_neg hc, if_neg hs, if_neg hu] at h
            simp only [Except.ok.injEq, Prod.mk.injEq] at h
            simp [← h.2]

/-- A frame with `event = "challenge"` but no `"message"` key: the receive
loop's guard `_event == "challenge" and "message" in msg` does not fire, so
the frame is delivered to the application callback. -/
def challengeNoMessage : Frame :=
  { event := some "challenge", message := none, feed := none, product_ids := none,
    rest := 7 }

/-- Counterexample to C8 as stated: the claim says every frame with event
`"challenge"` is consumed internally and never delivered to the callback, but
the code only consumes a challenge frame that also carries a `"message"`
field — `challengeNoMessage` is passed through to the callback unmodified. -/
theorem challenge_event_delivered_counterexample :
    handleMsg [] [] "secret" emptyState challengeNoMessage
      = .ok (emptyState, [challengeNoMessage]) := by rfl

/-- C8 (amended): a frame with event `"challenge"` carrying a `"message"`
field is consumed internally (its nonce signed into the challenge state) and
not delivered; a well-formed `"subscribed"`/`"unsubscribed"` frame updates the
registry and is then passed through unmodified; every other frame — including
a `"challenge"` frame without a `"message"` field — is passed through
unmodified; and over a whole input stream the deliveries are exactly the
non-consumed frames in arrival order. -/
theorem frame_classification_amended :
    (∀ (pub priv : List String) (secret : String) (st : ClientState) (m : Frame)
        (raw sig : String),
        m.event = some "challenge" → m.message = some raw →
        get_sign_challenge secret raw = some sig →
        handleMsg pub priv secret st m
          = .ok ({ st with
                    last_challenge := some raw, new_challenge := some sig,
                    challenge_ready := true }, [])) ∧
    (∀ (pub priv : List String) (secret : String) (st : ClientState) (m : Frame)
        (subs' : List Sub),
        m.event = some "subscribed" →
        append_subscription pub priv m st.subscriptions = .ok subs' →
        handleMsg pub priv secret st m = .ok ({ st with subscriptions := subs' }, [m])) ∧
    (∀ (pub priv : List String) (secret : String) (st : ClientState) (m : Frame)
        (subs' : List Sub),
        m.event = some "unsubscribed" →
        remove_subscription pub priv m st.subscriptions = .ok subs' →
        handleMsg pub priv secret st m = .ok ({ st with subscriptions := subs' }, [m])) ∧
    (∀ (pub priv : List String) (secret : String) (st : ClientState) (m : Frame),
        ¬(m.event = some "challenge" ∧ m.message.isSome) →
        m.event ≠ some "subscribed" → m.event ≠ some "unsubscribed" →
        handleMsg pub priv secret st m = .ok (st, [m])) ∧
    (∀ (pub priv : List String) (secret : String) (frames : List Frame)
        (st st' : ClientState) (ds : List Delivery),
        runLoop pub priv secret st (frames.map RecvIn.frame) = .ok (st', ds) →
        ds = (frames.filter
            (fun m => ¬(m.event = some "challenge" ∧ m.message.isSome))).map
          Delivery.msg) := by
  refine ⟨?_, ?_, ?_, ?_, ?_⟩
  · intro pub priv secret st m raw sig hev hmsg hsig
    simp [handleMsg, bind, Except.bind, hev, hmsg, hsig]
  · intro pub priv secret st m subs' hev happ
    simp [handleMsg, bind, Except.bind, hev, happ, Except.map]
  · intro pub priv secret st m subs' hev hrem
    simp [handleMsg, bind, Except.bind, hev, hrem, Except.map]
  · intro pub priv secret st m hc hs hu
    cases hme : m.event with
    | none => simp [handleMsg, hme, bind, Except.bind]
    | some e =>
        rw [hme] at hc hs hu
        have hc' : ¬(e = "challenge" ∧ (Option.isSome m.message : Prop)) := by
          intro hx
          exact hc ⟨by rw [hx.1], hx.2⟩
        have hs' : e ≠ "subscribed" := fun hx => hs (by rw [hx])
        have hu' : e ≠ "unsubscribed" := fun hx => hu (by rw [hx])
        simp [handleMsg, hme, bind, Except.bind, hc', hs', hu']
  · intro pub priv secret frames
    induction frames with
    | nil =>
        intro st st' ds h
        simp only [List.map_nil, runLoop, Except.ok.injEq, Prod.mk.injEq] at h
        simp [← h.2]
    | cons m rest ih =>
        intro st st' ds h
        simp only [List.map_cons, runLoop, runIter, bind, Except.bind] at h
        cases hm : handleMsg pub priv secret st m with
        | error er => rw [hm] at h; simp [Except.map] at h
        | ok p =>
            rw [hm] at h
            rcases p with ⟨st1, ds1⟩
            simp only [Except.map] at h
            rw [if_pos trivial] at h
            cases hrest : runLoop pub priv secret st1 (rest.map RecvIn.frame) with
            | error er => rw [hrest] at h; simp at h
            | ok q =>
                rw [hrest] at h
                rcases q with ⟨st2, ds2⟩
                simp only [Except.ok.injEq, Prod.mk.injEq] at h
                have hds1 := handleMsg_deliveries pub priv secret st st1 m ds1 hm
                have hds2 := ih st1 st2 ds2 hrest
                rw [← h.2, hds1, hds2]
                by_cases hcm : m.event = some "challenge" ∧ (Option.isSome m.message : Prop)
                · rw [if_pos hcm]
                  rw [List.filter_cons_of_neg]
                  · simp
                  · simp [hcm]
                · rw [if_neg hcm]
                  rw [List.filter_cons_of_pos]
                  · simp
                  · simp [hcm]

/-- Witness for C8 (amended): the concrete `"ticker"` ack is registered and
passed through. -/
theorem frame_classification_amended_witness :
    handleMsg ["ticker"] [] "sec" emptyState tickerAck
      = .ok ({ emptyState with
                subscriptions := [⟨some "ticker", some ["PI_XBTUSD"]⟩] }, [tickerAck]) :=
  frame_classification_amended.2.1 ["ticker"] [] "sec" emptyState tickerAck
    [⟨some "ticker", some ["PI_XBTUSD"]⟩] rfl rfl

/-- Invariant of the send machine: the attach/transmit point (and the state
after it) is only reached with a ready challenge. -/
def SendInv (s : SendSt) : Prop :=
  (s.phase = .attach ∨ s.phase = .done) → s.conn.challenge_ready = true

/-- Every step preserves `SendInv`: the only edges into `attach` check
`challenge_ready`, and no step clears it. -/
theorem sendStep_inv {auth : Bool} {key secret : String} {m : Frame}
    {s s' : SendSt} {a : Act} (h : SendStep auth key secret m s a s') :
    SendInv s → SendInv s' := by
  cases h with
  | socketWait c hc => intro hi; exact hi
  | socketReady c hc => intro _ hp; rcases hp with hp | hp <;> cases hp
  | noAuth c hc => intro _ hp; rcases hp with hp | hp <;> cases hp
  | authReady c ha hr => intro _ _; exact hr
  | authNotReady c ha hr => intro _ hp; rcases hp with hp | hp <;> cases hp
  | pollSleep c hr => intro _ hp; rcases hp with hp | hp <;> cases hp
  | pollDone c hr => intro _ _; exact hr
  | doSend c => intro hi _; exact hi (Or.inl rfl)
  | envOpen p c => intro hi hp; exact hi hp
  | envChal p c raw sig hsig => intro _ _; rfl

/-- `SendInv` holds along every trace from an invariant state. -/
theorem sendTrace_inv {auth : Bool} {key secret : String} {m : Frame}
    {s : SendSt} {acts : List Act} {s' : SendSt}
    (h : SendTrace auth key secret m s acts s') : SendInv s → SendInv s' := by
  induction h with
  | refl s => exact id
  | step s a s1 acts s2 hstep _ ih => intro hi; exact ih (sendStep_inv hstep hi)

/-- C2: along every execution of `send_message(m, private=True)` started at
the socket-wait entry point, a private subscribe payload is transmitted only
from a state whose challenge is ready, and the transmitted message is the
original one with the api key, the stored original challenge and the stored
signed challenge attached; moreover while the send is suspended in the
challenge poll every sleep is the fixed 200ms interval. -/
theorem private_send_only_when_ready :
    ∀ (auth : Bool) (key secret : String) (m : Frame) (c0 : ConnSt)
      (acts : List Act) (s s' : SendSt) (a : Act),
      SendTrace auth key secret m ⟨.waitSocket, c0⟩ acts s →
      SendStep auth key secret m s a s' →
      ((∀ (mm : Frame) (k : String) (o g : Option String),
          a = .transmit (.privateSubscribe mm k o g) →
          s.conn.challenge_ready = true ∧ mm = m ∧ k = key ∧
          o = s.conn.last_challenge ∧ g = s.conn.new_challenge) ∧
       (∀ n : Nat, s.phase = .polling → a = .sleep n → n = 200)) := by
  intro auth key secret m c0 acts s s' a htr hstep
  have hinv : SendInv s := sendTrace_inv htr (fun hp => by rcases hp with hp | hp <;> cases hp)
  constructor
  · intro mm k o g ha
    cases hstep with
    | socketWait c hc => cases ha
    | socketReady c hc => cases ha
    | noAuth c hc => cases ha
    | authReady c h1 h2 => cases ha
    | authNotReady c h1 h2 => cases ha
    | pollSleep c hr => cases ha
    | pollDone c hr => cases ha
    | doSend c =>
        injection ha with ha1
        injection ha1 with hb1 hb2 hb3 hb4
        exact ⟨hinv (Or.inl rfl), hb1.symm, hb2.symm, hb3.symm, hb4.symm⟩
    | envOpen p c => cases ha
    | envChal p c raw sig hsig => cases ha
  · intro n hp ha
    cases hstep with
    | socketWait c hc => cases hp
    | socketReady c hc => cases ha
    | noAuth c hc => cases ha
    | authReady c h1 h2 => cases ha
    | authNotReady c h1 h2 => cases ha
    | pollSleep c hr => injection ha with h200; omega
    | pollDone c hr => cases ha
    | doSend c => cases ha
    | envOpen p c => cases ha
    | envChal p c raw sig hsig => cases ha

/-- A ready connection state used by the C2 witness. -/
def readyConn : ConnSt :=
  { socket_open := true, challenge_ready := true,
    last_challenge := some "nonce", new_challenge := some "signed" }

/-- An outbound subscribe payload used by the send-path witnesses. -/
def subscribePayload : Frame :=
  { event := none, message := none, feed := some "fills", product_ids := none, rest := 1 }

/-- Witness for C2: a concrete trace to the attach point followed by the
transmit step, on `readyConn`. -/
theorem private_send_only_when_ready_witness :
    (⟨Phase.attach, readyConn⟩ : SendSt).conn.challenge_ready = true ∧
    subscribePayload = subscribePayload ∧ ("api-key" : String) = "api-key" ∧
    (some "nonce" : Option String) = (⟨Phase.attach, readyConn⟩ : SendSt).conn.last_challenge ∧
    (some "signed" : Option String) = (⟨Phase.attach, readyConn⟩ : SendSt).conn.new_challenge := by
  have htr : SendTrace true "api-key" "sec" subscribePayload
      ⟨.waitSocket, readyConn⟩ [.tau, .tau] ⟨.attach, readyConn⟩ :=
    .step _ _ _ _ _ (.socketReady readyConn rfl)
      (.step _ _ _ _ _ (.authReady readyConn rfl rfl) (.refl _))
  exact (private_send_only_when_ready true "api-key" "sec" subscribePayload readyConn
      [.tau, .tau] ⟨.attach, readyConn⟩ ⟨.done, readyConn⟩ _ htr
      (.doSend readyConn)).1 subscribePayload "api-key"
      (some "nonce") (some "signed") rfl

/-- The connection state before the socket has opened. -/
def closedConn : ConnSt :=
  { socket_open := false, challenge_ready := false,
    last_challenge := none, new_challenge := none }

/-- `closedConn` after the environment opens the socket. -/
def openedConn : ConnSt :=
  { socket_open := true, challenge_ready := false,
    last_challenge := none, new_challenge := none }

/-- Counterexample to C7 as stated: the claim says a private send on a
client without credentials fails immediately with no suspension before the
failure; but `send_message` polls `while not self.__socket` BEFORE the
credential check, so when the socket is not yet open the call suspends
(a 400ms sleep) before the authorization error fires — exhibited by this
concrete trace. -/
theorem noauth_send_suspends_counterexample :
    SendTrace false "api-key" "sec" subscribePayload ⟨.waitSocket, closedConn⟩
      [.sleep 400, .envSocketOpens, .tau, .raiseAuthError] ⟨.failedAuth, openedConn⟩ :=
  .step _ _ _ _ _ (.socketWait closedConn rfl)
    (.step _ _ _ _ _ (.envOpen .waitSocket closedConn)
      (.step _ _ _ _ _ (.socketReady openedConn rfl)
        (.step _ _ _ _ _ (.noAuth openedConn rfl) (.refl _))))

/-- Environment-free trace segments of the unauthenticated private send from
an open socket stay in the socket-wait/credential-check/failed triangle,
keep the connection state unchanged, and never sleep or transmit. -/
theorem noauth_send_aux {key secret : String} {m : Frame} :
    ∀ (s : SendSt) (acts : List Act) (s' : SendSt),
      SendTrace false key secret m s acts s' →
      (s.phase = .waitSocket ∨ s.phase = .checkAuth ∨ s.phase = .failedAuth) →
      s.conn.socket_open = true →
      (∀ a ∈ acts, a ≠ .envSocketOpens ∧ ∀ raw, a ≠ .envChallenge raw) →
      s'.conn = s.conn ∧
        ∀ a ∈ acts, (∀ n, a ≠ Act.sleep n) ∧ ∀ om, a ≠ Act.transmit om := by
  intro s acts s' htr
  induction htr with
  | refl s => intro _ _ _; exact ⟨rfl, by intro a ha; cases ha⟩
  | step s a s1 acts s2 hstep htail ih =>
      intro hphase hsock henv
      have henva := henv a (List.mem_cons_self a acts)
      have henvtail : ∀ b ∈ acts, b ≠ Act.envSocketOpens ∧ ∀ raw, b ≠ Act.envChallenge raw :=
        fun b hb => henv b (List.mem_cons_of_mem a hb)
      cases hstep with
      | socketWait c hc =>
          rw [hsock] at hc; cases hc
      | socketReady c hc =>
          have := ih (Or.inr (Or.inl rfl)) hsock henvtail
          refine ⟨this.1, ?_⟩
          intro b hb
          rw [List.mem_cons] at hb
          rcases hb with rfl | hb
          · exact ⟨(fun n h => by cases h), (fun om h => by cases h)⟩
          · exact this.2 b hb
      | noAuth c hc =>
          have := ih (Or.inr (Or.inr rfl)) hsock henvtail
          refine ⟨this.1, ?_⟩
          intro b hb
          rw [List.mem_cons] at hb
          rcases hb with rfl | hb
          · exact ⟨(fun n h => by cases h), (fun om h => by cases h)⟩
          · exact this.2 b hb
      | authReady c ha hr => cases ha
      | authNotReady c ha hr => cases ha
      | pollSleep c hr =>
          rcases hphase with hp | hp | hp <;> cases hp
      | pollDone c hr =>
          rcases hphase with hp | hp | hp <;> cases hp
      | doSend c =>
          rcases hphase with hp | hp | hp <;> cases hp
      | envOpen p c =>
          exact absurd rfl henva.1
      | envChal p c raw sig hsig =>
          exact absurd rfl (henva.2 raw)

/-- C7 (amended): once the socket is open, a private send on a client with no
credentials configured fails with the authorization `ValueError` with no
suspension and nothing written to the socket, leaving the connection state
unchanged — the two-step trace `tau, raiseAuthError` realises the failure;
if the socket is not yet open, however, the call first suspends in the
400ms socket poll (see the counterexample) before failing, still writing
nothing. -/
theorem private_send_noauth_immediate :
    ∀ (key secret : String) (m : Frame) (c0 : ConnSt) (acts : List Act) (s' : SendSt),
      c0.socket_open = true →
      SendTrace false key secret m ⟨.waitSocket, c0⟩ acts s' →
      (∀ a ∈ acts, a ≠ .envSocketOpens ∧ ∀ raw, a ≠ .envChallenge raw) →
      (s'.conn = c0 ∧
        ∀ a ∈ acts, (∀ n, a ≠ Act.sleep n) ∧ ∀ om, a ≠ Act.transmit om) ∧
      SendTrace false key secret m ⟨.waitSocket, c0⟩ [.tau, .raiseAuthError]
        ⟨.failedAuth, c0⟩ := by
  intro key secret m c0 acts s' hsock htr henv
  refine ⟨noauth_send_aux _ acts s' htr (Or.inl rfl) hsock henv, ?_⟩
  exact .step _ _ _ _ _ (.socketReady c0 hsock)
    (.step _ _ _ _ _ (.noAuth c0 rfl) (.refl _))

/-- Witness for C7 (amended): the concrete failing trace from `openedConn`. -/
theorem private_send_noauth_immediate_witness :
    ((⟨Phase.failedAuth, openedConn⟩ : SendSt).conn = openedConn ∧
      ∀ a ∈ ([.tau, .raiseAuthError] : List Act),
        (∀ n, a ≠ Act.sleep n) ∧ ∀ om, a ≠ Act.transmit om) ∧
    SendTrace false "api-key" "sec" subscribePayload ⟨.waitSocket, openedConn⟩
      [.tau, .raiseAuthError] ⟨.failedAuth, openedConn⟩ := by
  have htr : SendTrace false "api-key" "sec" subscribePayload
      ⟨.waitSocket, openedConn⟩ [.tau, .raiseAuthError] ⟨.failedAuth, openedConn⟩ :=
    .step _ _ _ _ _ (.socketReady openedConn rfl)
      (.step _ _ _ _ _ (.noAuth openedConn rfl) (.refl _))
  exact private_send_noauth_immediate "api-key" "sec" subscribePayload openedConn
    [.tau, .raiseAuthError] ⟨.failedAuth, openedConn⟩ rfl htr
    (by
      intro a ha
      simp only [List.mem_cons, List.not_mem_nil, or_false] at ha
      rcases ha with rfl | rfl
      · exact ⟨(by intro h; cases h), (by intro raw h; cases h)⟩
      · exact ⟨(by intro h; cases h), (by intro raw h; cases h)⟩)

end KrakenWs
